import Mathlib

/-!
Verification development for the Transient Recorder core framework
(TRBaseDriver and collaborators).  The definitions below are shallow
embeddings of the C++ source functions:

- checkBasicSettings      from TRBaseDriver.cpp (lines 636-674)
- handleArmRequest and the ARM_REQUEST branch of writeInt32
                          from TRBaseDriver.cpp (lines 144-163, 203-227)
- startArming, requestDisarming
                          from TRBaseDriver.cpp (lines 229-287)
- submit                  from TRChannelDataSubmit.cpp (lines 43-89)
- readFloat64Array        from TRTimeArrayDriver (TRConfigParamTraits.h
                          concatenation, lines 156-188)
- readThreadIteration     from TRBaseDriver.cpp (lines 312-588), modelled
                          as a trace-producing function over an adapter
                          script (the results of the virtual adapter
                          callbacks) and a disarm-request schedule.

Machine integers are modelled as Int (the relevant arithmetic never
overflows in the scenarios considered; the one place the C code checks
for int overflow, readFloat64Array, models the check explicitly against
INT_MAX).  Doubles that only flow through data paths are modelled as
rationals; NaN sentinels are modelled as explicit flags.
-/

namespace TRCore

/-- Arm states, mirroring the ArmState enum of TRBaseDriver.h
(0=Disarm, 1=PostTrigger, 2=PrePostTrigger, 3=Busy, 4=Error). -/
inductive ArmState where
  | Disarm
  | PostTrigger
  | PrePostTrigger
  | Busy
  | Error
deriving DecidableEq

/-- Integer value of an arm state, as used on the parameter bus. -/
def ArmState.toInt : ArmState → Int
  | .Disarm => 0
  | .PostTrigger => 1
  | .PrePostTrigger => 2
  | .Busy => 3
  | .Error => 4

/-- Arm state denoted by an integer written to ARM_REQUEST (only 0, 1, 2
are accepted by handleArmRequest; other values never reach a cast). -/
def armStateOfInt (v : Int) : ArmState :=
  if v = 0 then ArmState.Disarm
  else if v = 1 then ArmState.PostTrigger
  else if v = 2 then ArmState.PrePostTrigger
  else if v = 3 then ArmState.Busy
  else ArmState.Error

/-! ## checkBasicSettings (TRBaseDriver.cpp lines 636-674)

The function reads the snapshot values of NUM_BURSTS, NUM_POST_SAMPLES
and NUM_PRE_POST_SAMPLES and may rewrite the snapshot and irrelevant
flag of NUM_PRE_POST_SAMPLES.  We model the relevant snapshot state as
a record and return the bool result together with the updated state. -/

/-- Snapshot state read and written by checkBasicSettings: the snapshot
values of the three base integer parameters and the irrelevant flag of
NUM_PRE_POST_SAMPLES. -/
structure BasicSnap where
  numBursts : Int
  numPostSamples : Int
  numPrePostSamples : Int
  prePostIrrelevant : Bool
deriving DecidableEq

/-- Shallow embedding of TRBaseDriver::checkBasicSettings.  Returns the
bool result and the possibly updated snapshot state. -/
def checkBasicSettings (p : BasicSnap) (requestedArmState : ArmState)
    (supportsPreSamples : Bool) : Bool × BasicSnap :=
  if p.numBursts < 0 then (false, p)
  else if p.numPostSamples ≤ 0 then (false, p)
  else if requestedArmState = ArmState.PrePostTrigger then
    if supportsPreSamples = false then (false, p)
    else if p.numPrePostSamples ≤ p.numPostSamples then (false, p)
    else (true, p)
  else
    (true, { p with prePostIrrelevant := true, numPrePostSamples := 0 })

/-! ## Writer-side state: handleArmRequest, startArming, requestDisarming
(TRBaseDriver.cpp lines 144-163, 203-287)

The state visible to the parameter-write path.  Events and signalling
are modelled as counters (startSignals counts m_start_arming_event
signals, disarmSignals counts m_disarm_requested_event signals,
interruptCount counts interruptReading invocations). -/

/-- Controller state manipulated by the write-side handlers. -/
structure WSt where
  armState : ArmState
  armRequestParam : Int
  requestedArmState : ArmState
  disarmRequested : Bool
  allowingData : Bool
  rearmState : ArmState
  inReadLoop : Bool
  interruptCount : Nat
  startSignals : Nat
  disarmSignals : Nat
deriving DecidableEq

/-- Result statuses returned to the asyn bus. -/
inductive AsynStatus where
  | success
  | error
deriving DecidableEq

/-- Shallow embedding of TRBaseDriver::startArming (lines 229-246):
set state Busy, reset per-arming flags, signal the read thread. -/
def startArming (st : WSt) (requested : ArmState) : WSt :=
  { st with
    armState := ArmState.Busy
    requestedArmState := requested
    disarmRequested := false
    rearmState := ArmState.Disarm
    inReadLoop := false
    startSignals := st.startSignals + 1 }

/-- Shallow embedding of TRBaseDriver::requestDisarming (lines 248-287):
on the first disarm request of an arming, latch the flag, forbid data,
set state Busy, signal the event and (if in the read loop) invoke
interruptReading; on every call, record the requested rearm state. -/
def requestDisarming (st : WSt) (requestedRearmState : ArmState) : WSt :=
  if st.disarmRequested = false then
    { st with
      disarmRequested := true
      allowingData := false
      armState := ArmState.Busy
      disarmSignals := st.disarmSignals + 1
      interruptCount := st.interruptCount + (if st.inReadLoop then 1 else 0)
      rearmState := requestedRearmState }
  else
    { st with rearmState := requestedRearmState }

/-- Shallow embedding of TRBaseDriver::handleArmRequest (lines 203-227). -/
def handleArmRequest (st : WSt) (armRequest : Int) : WSt × AsynStatus :=
  if armRequest ≠ 0 ∧ armRequest ≠ 1 ∧ armRequest ≠ 2 then
    (st, AsynStatus.error)
  else if st.armState = ArmState.Disarm then
    if armRequest ≠ 0 then
      (startArming st (armStateOfInt armRequest), AsynStatus.success)
    else
      (st, AsynStatus.success)
  else
    (requestDisarming st (armStateOfInt armRequest), AsynStatus.success)

/-- Shallow embedding of the ARM_REQUEST branch of TRBaseDriver::writeInt32
(lines 144-153): the base-class write stores the value into the parameter
library first, then handleArmRequest runs and its status is returned. -/
def writeInt32ArmRequest (st : WSt) (value : Int) : WSt × AsynStatus :=
  handleArmRequest { st with armRequestParam := value } value

/-! ## TRChannelDataSubmit::submit (TRChannelDataSubmit.cpp lines 43-89) -/

/-- State of a TRChannelDataSubmit object: the held NDArray, identified
by an abstract id, or none. -/
structure SubmitSt where
  arr : Option Nat
deriving DecidableEq

/-- The part of the driver state read by submit under the port lock. -/
structure DrvSt where
  allowingData : Bool
  rateForDisplay : ℚ
deriving DecidableEq

/-- What submit did: nothing (no array was held), released the array
without passing it on, or passed it to the channels driver together
with the sample rate attribute. -/
inductive SubmitAction where
  | noArray
  | released (a : Nat)
  | submitted (a : Nat) (rate : ℚ)
deriving DecidableEq

/-- Shallow embedding of TRChannelDataSubmit::submit: if no array is
held, do nothing; otherwise take the array out, and under the port lock
check allowing_data: if false release the array, else submit it with
the sample rate read from the driver. -/
def submit (s : SubmitSt) (d : DrvSt) : SubmitSt × SubmitAction :=
  match s.arr with
  | none => (s, SubmitAction.noArray)
  | some a =>
    if d.allowingData then
      (⟨none⟩, SubmitAction.submitted a d.rateForDisplay)
    else
      (⟨none⟩, SubmitAction.released a)

/-! ## TRTimeArrayDriver::readFloat64Array (lines 156-188 of the
TRConfigParamTraits.h concatenation)

The double array elements are modelled as rationals; the int overflow
guard of the C code is modelled against INT_MAX. -/

/-- Largest value of a 32-bit int, used by the overflow guard. -/
def INT_MAX : Int := 2147483647

/-- The count computation of readFloat64Array (lines 171-174): the
number of elements to write, num_pre + num_post truncated to the
buffer capacity nElements. -/
def timeArrayCount (numPre numPost : Int) (nElements : Nat) : Int :=
  if numPre + numPost > (nElements : Int) then (nElements : Int)
  else numPre + numPost

/-- Shallow embedding of TRTimeArrayDriver::readFloat64Array for the
ARRAY parameter: none models asynError with nIn = 0, some l models
asynSuccess with the l.length elements of l written. -/
def readFloat64Array (unit : ℚ) (numPre numPost : Int) (nElements : Nat) :
    Option (List ℚ) :=
  if numPre < 0 ∨ numPost < 0 ∨ numPost > INT_MAX - numPre then
    none
  else
    some ((List.range (timeArrayCount numPre numPost nElements).toNat).map
      (fun (i : Nat) => ((i : Int) - numPre) * unit))

/-! ## The read thread iteration (TRBaseDriver.cpp lines 312-588)

One call of readThreadIteration performs one arming: wait for
preconditions, capture snapshots, validate, then the acquire-and-read
outer loop with the burst loop inside, and finally the shared cleanup.

The adapter callbacks are modelled by a script of their results; the
hardware interaction of each run is recorded as a trace of events.
Reads of the m_disarm_requested flag are numbered consecutively; the
script says from which read index on the flag is observed true (none
means disarming is never requested during the run), which models a
disarm request arriving at an arbitrary point of the run.  Running out
of script entries models an adapter call returning false (error). -/

/-- Observable events of one read-thread iteration.  setState is a
published ARM_STATE transition (the silent internal reset to Disarm
before a rearm, line 578, is deliberately not published by the code and
produces no event).  setEffective true is setEffectiveParams (effective
parameters take their snapshot values and EFFECTIVE_SAMPLE_RATE takes
rate_for_display, lines 590-599); setEffective false is
clearEffectiveParams (effective parameters and EFFECTIVE_SAMPLE_RATE
return to their invalid values / NaN, lines 601-610). -/
inductive Ev where
  | setState (s : ArmState)
  | setEffective (valid : Bool)
  | startAcq (overflow : Bool) (ok : Bool)
  | readB (ok : Bool)
  | chkOvf (res : Option (Bool × Int))
  | procB (ok : Bool)
  | stopAcq
  | waitDisarm
deriving DecidableEq

/-- Result of the burst loop (lines 443-502): an adapter error, a stop
due to a disarm request observed after readBurst, or the normal exit
with currentRemBursts = 0, carrying the updated remainingBursts, the
overflow flag and the unconsumed script suffixes. -/
inductive InnerRes where
  | err (k : Nat)
  | stopped (k : Nat)
  | exit (k : Nat) (r : Int) (ovf : Bool)
      (reads : List Bool) (ovfs : List (Option (Bool × Int))) (procs : List Bool)
deriving DecidableEq

/-- Result of the outer acquire-and-read loop: hadError or clean stop,
with the next disarm-check index and the need_stop_acquisition flag. -/
inductive OuterRes where
  | err (k : Nat) (needStop : Bool)
  | stopped (k : Nat) (needStop : Bool)
deriving DecidableEq

/-- The need_stop_acquisition flag carried by an outer-loop result. -/
def OuterRes.needStop : OuterRes → Bool
  | .err _ b => b
  | .stopped _ b => b

/-- The burst loop, lines 443-502.  Arguments: the disarm schedule, the
script suffixes for readBurst, checkOverflow and processBurstData, the
next disarm-check index k, currentRemBursts c, remainingBursts r and
the overflow flag.  Each iteration: exit if c = 0; call readBurst (a
missing or false entry is an error); check the disarm flag (stop before
processing, line 453); if not already in overflow state call
checkOverflow and on a detected overflow set the flag and clamp c to
num_buffer_bursts (lines 457-485; the C assert on num_buffer_bursts > 0
aborts nothing at runtime in release builds and is not modelled); call
processBurstData; decrement c and r where positive (lines 493-498). -/
def innerLoop (dreq : Nat → Bool) :
    List Bool → List (Option (Bool × Int)) → List Bool →
    Nat → Int → Int → Bool → List Ev × InnerRes
  | [], ovfs, procs, k, c, r, ovf =>
    if c = 0 then ([], InnerRes.exit k r ovf [] ovfs procs)
    else ([Ev.readB false], InnerRes.err k)
  | rb :: reads1, ovfs, procs, k, c, r, ovf =>
    if c = 0 then ([], InnerRes.exit k r ovf (rb :: reads1) ovfs procs)
    else if rb = false then ([Ev.readB false], InnerRes.err k)
    else if dreq k then ([Ev.readB true], InnerRes.stopped (k + 1))
    else if ovf then
      match procs with
      | [] => ([Ev.readB true, Ev.procB false], InnerRes.err (k + 1))
      | pb :: procs1 =>
        if pb = false then ([Ev.readB true, Ev.procB false], InnerRes.err (k + 1))
        else
          let c2 := if c > 0 then c - 1 else c
          let r2 := if r > 0 then r - 1 else r
          let out := innerLoop dreq reads1 ovfs procs1 (k + 1) c2 r2 ovf
          (Ev.readB true :: Ev.procB true :: out.1, out.2)
    else
      match ovfs with
      | [] => ([Ev.readB true, Ev.chkOvf none], InnerRes.err (k + 1))
      | none :: _ => ([Ev.readB true, Ev.chkOvf none], InnerRes.err (k + 1))
      | some (had, nb) :: ovfs1 =>
        let c1 := if had then (if c < 0 then nb else min c nb) else c
        let ovf1 := if had then true else ovf
        match procs with
        | [] =>
          ([Ev.readB true, Ev.chkOvf (some (had, nb)), Ev.procB false],
            InnerRes.err (k + 1))
        | pb :: procs1 =>
          if pb = false then
            ([Ev.readB true, Ev.chkOvf (some (had, nb)), Ev.procB false],
              InnerRes.err (k + 1))
          else
            let c2 := if c1 > 0 then c1 - 1 else c1
            let r2 := if r > 0 then r - 1 else r
            let out := innerLoop dreq reads1 ovfs1 procs1 (k + 1) c2 r2 ovf1
            (Ev.readB true :: Ev.chkOvf (some (had, nb)) :: Ev.procB true :: out.1,
              out.2)

/-- The outer acquire-and-read loop, lines 387-521.  Arguments: the
disarm schedule, the requested arm state, the startAcquisition script,
the three burst-loop scripts, the next disarm-check index, the
remainingBursts counter, the overflow flag and need_stop_acquisition.
Each iteration: observe the disarm flag (line 389); set need_stop and
call startAcquisition with the overflow flag (lines 403-408); observe
the disarm flag again (line 413); publish the requested arm state
unless recovering from overflow (lines 419-421); run the burst loop
with currentRemBursts = remainingBursts and the overflow flag cleared
(lines 437-440); on normal exit stop cleanly if remainingBursts = 0,
else restart for overflow recovery (lines 507-521). -/
def outerLoop (dreq : Nat → Bool) (reqState : ArmState) :
    List Bool → List Bool → List (Option (Bool × Int)) → List Bool →
    Nat → Int → Bool → Bool → List Ev × OuterRes
  | starts, reads, ovfs, procs, k, r, ovf, needStop =>
    if dreq k then ([], OuterRes.stopped (k + 1) needStop)
    else
      match starts with
      | [] => ([Ev.startAcq ovf false], OuterRes.err (k + 1) true)
      | s :: starts1 =>
        if s = false then ([Ev.startAcq ovf false], OuterRes.err (k + 1) true)
        else if dreq (k + 1) then
          ([Ev.startAcq ovf true], OuterRes.stopped (k + 2) true)
        else
          let pre := Ev.startAcq ovf true ::
            (if ovf then [] else [Ev.setState reqState])
          match innerLoop dreq reads ovfs procs (k + 2) r r false with
          | (tr, InnerRes.err k2) => (pre ++ tr, OuterRes.err k2 true)
          | (tr, InnerRes.stopped k2) => (pre ++ tr, OuterRes.stopped k2 true)
          | (tr, InnerRes.exit k2 r2 _ reads2 ovfs2 procs2) =>
            if r2 = 0 then (pre ++ tr, OuterRes.stopped k2 true)
            else
              let out := outerLoop dreq reqState starts1 reads2 ovfs2 procs2 k2 r2
                true true
              (pre ++ tr ++ out.1, out.2)

/-- The shared cleanup path, lines 525-588: on an error with no disarm
requested yet, publish Error and block until disarming is requested
(lines 543-551); call stopAcquisition if a startAcquisition call was
made (lines 556-561); reset the effective parameters to invalid values
(line 564); then either begin a rearm (publishing Busy via startArming,
with the internal Disarm transition not published, lines 574-581) or
publish Disarm (line 584). -/
def cleanup (dreq : Nat → Bool) (k : Nat) (hadError needStop : Bool)
    (rearm : ArmState) : List Ev :=
  (if hadError && !(dreq k) then [Ev.setState ArmState.Error, Ev.waitDisarm] else [])
  ++ (if needStop then [Ev.stopAcq] else [])
  ++ Ev.setEffective false ::
    (if rearm = ArmState.Disarm then [Ev.setState ArmState.Disarm]
     else [Ev.setState ArmState.Busy])

/-- Adapter script and environment for one arming: results of the
adapter callbacks, the captured snapshot values, the disarm-request
schedule and the final requested rearm state (the value of
m_requested_rearm_state when cleanup reaches line 574; it is
ArmState.Disarm when no disarm request carrying an arm state arrived). -/
structure Script where
  waitPre : Bool
  snap : BasicSnap
  requestedState : ArmState
  supportsPre : Bool
  checkSettingsOk : Bool
  rateIsNaN : Bool
  starts : List Bool
  reads : List Bool
  ovfs : List (Option (Bool × Int))
  procs : List Bool
  disarmAfter : Option Nat
  finalRearm : ArmState

/-- The disarm flag as a function of the disarm-check index: false
everywhere when no disarm is requested, and true from index d on when
the request arrives before check d (the flag is set once and latched,
line 257). -/
def dreqOf (sc : Script) : Nat → Bool := fun k =>
  match sc.disarmAfter with
  | none => false
  | some d => decide (d ≤ k)

/-- One full iteration of the read thread, lines 312-588, from the
start_arming_event wait to the final state transition, as the trace of
its observable events.  On entry the arm state is Busy (set by
startArming) and the effective parameters hold their invalid values. -/
def readThreadIteration (sc : Script) : List Ev :=
  let dreq := dreqOf sc
  if sc.waitPre = false then cleanup dreq 0 true false sc.finalRearm
  else if (checkBasicSettings sc.snap sc.requestedState sc.supportsPre).1 = false then
    cleanup dreq 0 true false sc.finalRearm
  else if sc.checkSettingsOk = false then cleanup dreq 0 true false sc.finalRearm
  else if sc.rateIsNaN then cleanup dreq 0 true false sc.finalRearm
  else
    let r0 : Int := if sc.snap.numBursts = 0 then -1 else sc.snap.numBursts
    let out := outerLoop dreq sc.requestedState sc.starts sc.reads sc.ovfs sc.procs
      0 r0 false false
    match out.2 with
    | OuterRes.err k ns =>
      Ev.setEffective true :: out.1 ++ cleanup dreq k true ns sc.finalRearm
    | OuterRes.stopped k ns =>
      Ev.setEffective true :: out.1 ++ cleanup dreq k false ns sc.finalRearm

/-! ## Trace predicates -/

/-- Event is a stopAcquisition call. -/
def isStop : Ev → Bool
  | Ev.stopAcq => true
  | _ => false

/-- Event is a startAcquisition call (successful or not). -/
def isStart : Ev → Bool
  | Ev.startAcq _ _ => true
  | _ => false

/-- Event is a successful readBurst call. -/
def isReadOk : Ev → Bool
  | Ev.readB true => true
  | _ => false

/-- Event is a successful processBurstData call (a processed burst). -/
def isProcOk : Ev → Bool
  | Ev.procB true => true
  | _ => false

/-- Event is any adapter acquisition call: startAcquisition, readBurst,
checkOverflow, processBurstData or stopAcquisition. -/
def isAcqCall : Ev → Bool
  | Ev.startAcq _ _ => true
  | Ev.readB _ => true
  | Ev.chkOvf _ => true
  | Ev.procB _ => true
  | Ev.stopAcq => true
  | _ => false

/-- Event is one of the burst-loop events: readBurst, checkOverflow or
processBurstData. -/
def isBurstEv : Ev → Bool
  | Ev.readB _ => true
  | Ev.chkOvf _ => true
  | Ev.procB _ => true
  | _ => false

/-- Event is one that the outer acquire-and-read loop can emit: a
burst-loop event, a startAcquisition call, or the publication of the
requested arm state. -/
def outerEvOk (reqState : ArmState) (e : Ev) : Bool :=
  isBurstEv e || isStart e || (e == Ev.setState reqState)

/-- After the first published ARM_STATE = Disarm, no stopAcquisition
call occurs in the rest of the trace. -/
def noStopAfterDisarm : List Ev → Bool
  | [] => true
  | Ev.setState ArmState.Disarm :: rest => rest.all (fun e => !(isStop e))
  | _ :: rest => noStopAfterDisarm rest

/-- After the first stopAcquisition call, no adapter acquisition call
occurs in the rest of the trace. -/
def noAcqCallAfterStop : List Ev → Bool
  | [] => true
  | Ev.stopAcq :: rest => rest.all (fun e => !(isAcqCall e))
  | _ :: rest => noAcqCallAfterStop rest

/-- The externally observable (published ARM_STATE, effective
parameters pushed from snapshot) pair evolved by an event. -/
def stepSt (st : ArmState × Bool) (e : Ev) : ArmState × Bool :=
  match e with
  | Ev.setState s => (s, st.2)
  | Ev.setEffective b => (st.1, b)
  | _ => st

/-- Every state reached after some event of the trace, starting from
st, satisfies the predicate. -/
def evsOk (P : ArmState × Bool → Bool) : ArmState × Bool → List Ev → Bool
  | _, [] => true
  | st, e :: rest =>
    let st1 := stepSt st e
    P st1 && evsOk P st1 rest

/-- Every state along the trace of one read-thread iteration (starting
from the entry state: ARM_STATE = Busy, effective parameters invalid)
satisfies the predicate. -/
def armedStatesOk (P : ArmState × Bool → Bool) (tr : List Ev) : Bool :=
  P (ArmState.Busy, false) && evsOk P (ArmState.Busy, false) tr

/-- The predicate asserted by the specification: whenever the arm state
is not PostTrigger and not PrePostTrigger, the effective parameters
hold their invalid values. -/
def claimPredC4 (st : ArmState × Bool) : Bool :=
  !(decide (st.1 ≠ ArmState.PostTrigger ∧ st.1 ≠ ArmState.PrePostTrigger) && st.2)

/-- The amended predicate: whenever the published arm state is Disarm,
the effective parameters hold their invalid values. -/
def disarmInvalidPred (st : ArmState × Bool) : Bool :=
  !(decide (st.1 = ArmState.Disarm) && st.2)

/-! ## Concrete scenario scripts -/

/-- Happy-path script: NUM_BURSTS = 1, one burst, no overflow, no
disarm request (specification scenario 1, shrunk to one burst). -/
def scHappy : Script :=
  { waitPre := true
    snap := { numBursts := 1, numPostSamples := 1000, numPrePostSamples := 0,
              prePostIrrelevant := false }
    requestedState := ArmState.PostTrigger
    supportsPre := false
    checkSettingsOk := true
    rateIsNaN := false
    starts := [true]
    reads := [true]
    ovfs := [some (false, 5)]
    procs := [true]
    disarmAfter := none
    finalRearm := ArmState.Disarm }

/-- Overflow-recovery script, specification scenario 4: NUM_BURSTS = 10,
checkOverflow reports an overflow with num_buffer_bursts = 2 at the
third burst, everything else succeeds, no disarm request.  The script
lists are padded with additional successful entries that the run never
consumes (the run makes 2 startAcquisition, 10 readBurst, 9
checkOverflow and 10 processBurstData calls). -/
def scOverflow : Script :=
  { waitPre := true
    snap := { numBursts := 10, numPostSamples := 1000, numPrePostSamples := 0,
              prePostIrrelevant := false }
    requestedState := ArmState.PostTrigger
    supportsPre := false
    checkSettingsOk := true
    rateIsNaN := false
    starts := List.replicate 10 true
    reads := List.replicate 10 true
    ovfs := [some (false, 5), some (false, 5), some (true, 2),
             some (false, 5), some (false, 5), some (false, 5),
             some (false, 5), some (false, 5), some (false, 5),
             some (false, 5)]
    procs := List.replicate 10 true
    disarmAfter := none
    finalRearm := ArmState.Disarm }

/-- A disarmed controller state with ARM_REQUEST holding 0. -/
def wst0 : WSt :=
  { armState := ArmState.Disarm
    armRequestParam := 0
    requestedArmState := ArmState.Disarm
    disarmRequested := false
    allowingData := false
    rearmState := ArmState.Disarm
    inReadLoop := false
    interruptCount := 0
    startSignals := 0
    disarmSignals := 0 }

/-- An armed controller state in which disarming has already been
requested once. -/
def wst1 : WSt :=
  { armState := ArmState.Busy
    armRequestParam := 0
    requestedArmState := ArmState.PostTrigger
    disarmRequested := true
    allowingData := false
    rearmState := ArmState.Disarm
    inReadLoop := true
    interruptCount := 1
    startSignals := 1
    disarmSignals := 1 }

/-! # Theorems -/

/-- Claim C8: checkBasicSettings returns false exactly when the snapshot
num_bursts is negative, or the snapshot num_post_samples is at most 0,
or the requested arm state is PrePostTrigger and pre-samples are
unsupported or the snapshot num_pre_post_samples is not greater than
num_post_samples; and when the requested state is not PrePostTrigger
(and the first two checks pass) it marks num_pre_post_samples
irrelevant, sets its snapshot to 0 and returns true. -/
theorem C8_checkBasicSettings_spec (p : BasicSnap) (req : ArmState) (sup : Bool) :
    ((checkBasicSettings p req sup).1 = false ↔
      (p.numBursts < 0 ∨ p.numPostSamples ≤ 0 ∨
        (req = ArmState.PrePostTrigger ∧
          (sup = false ∨ p.numPrePostSamples ≤ p.numPostSamples))))
    ∧ (req ≠ ArmState.PrePostTrigger → 0 ≤ p.numBursts → 0 < p.numPostSamples →
        checkBasicSettings p req sup =
          (true, { p with prePostIrrelevant := true, numPrePostSamples := 0 })) := by
  constructor
  · by_cases h1 : p.numBursts < 0
    · simp [checkBasicSettings, h1]
    · by_cases h2 : p.numPostSamples ≤ 0
      · simp [checkBasicSettings, h1, h2]
      · by_cases h3 : req = ArmState.PrePostTrigger
        · by_cases h4 : sup = false
          · simp [checkBasicSettings, h1, h2, h3, h4]
          · by_cases h5 : p.numPrePostSamples ≤ p.numPostSamples
            · simp [checkBasicSettings, h1, h2, h3, h4, h5]
            · simp [checkBasicSettings, h1, h2, h3, h4, h5]
        · simp [checkBasicSettings, h1, h2, h3]
  · intro h3 hnb hnp
    have h1 : ¬p.numBursts < 0 := not_lt.mpr hnb
    have h2 : ¬p.numPostSamples ≤ 0 := not_le.mpr hnp
    simp [checkBasicSettings, h1, h2, h3]

/-- Witness for C8 at a concrete input: requested state PostTrigger,
snapshot values 5, 100, 7; the snapshot of num_pre_post_samples is
overwritten to 0 and the irrelevant flag set. -/
theorem C8_checkBasicSettings_spec_witness :
    ArmState.PostTrigger ≠ ArmState.PrePostTrigger ∧ (0 : Int) ≤ 5 ∧ (0 : Int) < 100 ∧
    checkBasicSettings ⟨5, 100, 7, false⟩ ArmState.PostTrigger false =
      (true, ⟨5, 100, 0, true⟩) :=
  ⟨by decide, by decide, by decide,
    (C8_checkBasicSettings_spec ⟨5, 100, 7, false⟩ ArmState.PostTrigger false).2
      (by decide) (by decide) (by decide)⟩

/-- Counterexample to claim C5: writing the invalid value 5 to
ARM_REQUEST from the disarmed state with previous stored value 0 is
rejected with an error and changes nothing else, but the stored
ARM_REQUEST parameter value remains 5 rather than reverting to 0: the
base-class write stores the value before handleArmRequest rejects it. -/
theorem C5_counterexample :
    (writeInt32ArmRequest wst0 5).2 = AsynStatus.error ∧
    (writeInt32ArmRequest wst0 5).1.armState = wst0.armState ∧
    (writeInt32ArmRequest wst0 5).1.startSignals = wst0.startSignals ∧
    (writeInt32ArmRequest wst0 5).1.disarmSignals = wst0.disarmSignals ∧
    wst0.armRequestParam = 0 ∧
    (writeInt32ArmRequest wst0 5).1.armRequestParam = 5 := by
  decide

/-- Claim C5 as amended: a write of a value other than 0, 1 or 2 to
ARM_REQUEST returns an error status and changes nothing except the
stored ARM_REQUEST parameter value, which is left holding the written
(invalid) value; in particular the arm state does not change and no
arming or disarming is initiated.  (The revert of the external knob to
its previous value is performed by the record layer on seeing the error
status, outside this code.) -/
theorem C5_invalid_arm_request (st : WSt) (v : Int)
    (h0 : v ≠ 0) (h1 : v ≠ 1) (h2 : v ≠ 2) :
    writeInt32ArmRequest st v = ({ st with armRequestParam := v }, AsynStatus.error) := by
  unfold writeInt32ArmRequest handleArmRequest
  simp [h0, h1, h2]

/-- Witness for the amended C5 at the concrete input value 5. -/
theorem C5_invalid_arm_request_witness :
    (5 : Int) ≠ 0 ∧ (5 : Int) ≠ 1 ∧ (5 : Int) ≠ 2 ∧
    writeInt32ArmRequest wst0 5 = ({ wst0 with armRequestParam := 5 }, AsynStatus.error) :=
  ⟨by decide, by decide, by decide,
    C5_invalid_arm_request wst0 5 (by decide) (by decide) (by decide)⟩

/-- Claim C7: when allowing_data is false, submit never passes an array
to the channels driver and releases the held array instead; every array
actually submitted observed allowing_data = true under the port lock;
and the first disarm request clears allowing_data. -/
theorem C7_submit_gated_by_allowing_data (s : SubmitSt) (d : DrvSt) :
    (d.allowingData = false →
      (∀ a rate, (submit s d).2 ≠ SubmitAction.submitted a rate) ∧
      (∀ a, s.arr = some a → submit s d = (⟨none⟩, SubmitAction.released a)))
    ∧ (∀ a rate, (submit s d).2 = SubmitAction.submitted a rate →
        d.allowingData = true)
    ∧ (∀ st rearm, st.disarmRequested = false →
        (requestDisarming st rearm).allowingData = false) := by
  refine ⟨fun hnd => ⟨?_, ?_⟩, ?_, ?_⟩
  · intro a rate
    cases harr : s.arr with
    | none => simp [submit, harr]
    | some b => simp [submit, harr, hnd]
  · intro a ha
    simp [submit, ha, hnd]
  · intro a rate hsub
    cases harr : s.arr with
    | none => simp [submit, harr] at hsub
    | some b =>
      by_cases hd : d.allowingData
      · exact hd
      · simp [submit, harr, hd] at hsub
  · intro st rearm hreq
    simp [requestDisarming, hreq]

/-- Witness for C7: a held array with allowing_data false is released,
and a submitted action implies allowing_data was true. -/
theorem C7_submit_gated_by_allowing_data_witness :
    ((⟨false, 1⟩ : DrvSt).allowingData = false) ∧
    submit ⟨some 7⟩ ⟨false, 1⟩ = (⟨none⟩, SubmitAction.released 7) ∧
    wst0.disarmRequested = false ∧
    (requestDisarming wst0 ArmState.Disarm).allowingData = false :=
  ⟨by decide,
    ((C7_submit_gated_by_allowing_data ⟨some 7⟩ ⟨false, 1⟩).1 (by decide)).2 7 (by decide),
    by decide,
    (C7_submit_gated_by_allowing_data ⟨some 7⟩ ⟨false, 1⟩).2.2 wst0 ArmState.Disarm
      (by decide)⟩

/-- Claim C10: calling submit while no array is held is a no-op that
changes nothing and passes nothing on; every submit call leaves the
object empty, so a second submit after any submit passes nothing on,
and each successful allocateArray yields at most one downstream
submission. -/
theorem C10_submit_empty_noop (s : SubmitSt) (d d2 : DrvSt) :
    submit ⟨none⟩ d = (⟨none⟩, SubmitAction.noArray)
    ∧ (submit s d).1 = ⟨none⟩
    ∧ (submit (submit s d).1 d2).2 = SubmitAction.noArray := by
  refine ⟨by simp [submit], ?_, ?_⟩
  · cases s with
    | mk arr =>
      cases arr with
      | none => simp [submit]
      | some a => by_cases hd : d.allowingData <;> simp [submit, hd]
  · cases s with
    | mk arr =>
      cases arr with
      | none => simp [submit]
      | some a => by_cases hd : d.allowingData <;> simp [submit, hd]

/-- Claim C9: a read of the time ARRAY parameter with nonnegative
num_pre and num_post whose sum does not overflow succeeds and returns
exactly min(num_pre + num_post, nElements) elements, element i being
(i - num_pre) * unit. -/
theorem C9_timeArray_read (unit : ℚ) (p q : Int) (n : Nat)
    (hp : 0 ≤ p) (hq : 0 ≤ q) (hov : p + q ≤ INT_MAX) :
    ∃ l, readFloat64Array unit p q n = some l ∧
      l.length = min (p + q).toNat n ∧
      ∀ i (h : i < l.length), l.get ⟨i, h⟩ = ((i : Int) - p) * unit := by
  have hguard : ¬(p < 0 ∨ q < 0 ∨ q > INT_MAX - p) := by
    unfold INT_MAX at hov ⊢
    omega
  refine ⟨(List.range (timeArrayCount p q n).toNat).map
      (fun (i : Nat) => ((i : Int) - p) * unit), ?_, ?_, ?_⟩
  · unfold readFloat64Array
    rw [if_neg hguard]
  · rw [List.length_map, List.length_range]
    unfold timeArrayCount
    by_cases hc : p + q > (n : Int)
    · rw [if_pos hc]
      omega
    · rw [if_neg hc]
      omega
  · intro i h
    rw [List.get_eq_getElem]
    simp only [List.getElem_map, List.getElem_range]

/-- Witness for C9 at unit one half, num_pre 2, num_post 3, buffer
capacity 4: the read succeeds with min(5, 4) = 4 elements. -/
theorem C9_timeArray_read_witness :
    (0 : Int) ≤ 2 ∧ (0 : Int) ≤ 3 ∧ (2 : Int) + 3 ≤ INT_MAX ∧
    (∃ l, readFloat64Array (1/2) 2 3 4 = some l ∧
      l.length = min ((2 : Int) + 3).toNat 4 ∧
      ∀ i (h : i < l.length), l.get ⟨i, h⟩ = ((i : Int) - 2) * (1/2)) :=
  ⟨by decide, by decide, by decide,
    C9_timeArray_read (1/2) 2 3 4 (by decide) (by decide) (by decide)⟩


/-- Claim C6: while not disarmed, every valid ARM_REQUEST write records
its value as the pending rearm target; after the first disarm request
of the arming, such a write has no other side effect; a sequence of
such writes leaves the last one as the pending rearm target; and when
cleanup completes, a pending Disarm ends with ARM_STATE published as
Disarm whereas a pending PostTrigger/PrePostTrigger starts a new arming
(publishing Busy) without ARM_STATE = Disarm being published. -/
theorem C6_arm_request_coalescing :
    (∀ st rearm, (requestDisarming st rearm).rearmState = rearm)
    ∧ (∀ st rearm, st.disarmRequested = true →
        requestDisarming st rearm = { st with rearmState := rearm })
    ∧ (∀ st v, (v = 0 ∨ v = 1 ∨ v = 2) → st.armState ≠ ArmState.Disarm →
        writeInt32ArmRequest st v =
          (requestDisarming { st with armRequestParam := v } (armStateOfInt v),
            AsynStatus.success))
    ∧ (∀ st ws, (List.foldl requestDisarming st ws).rearmState =
        ws.getLast?.getD st.rearmState)
    ∧ (∀ dreq k he ns, (cleanup dreq k he ns ArmState.Disarm).getLast? =
        some (Ev.setState ArmState.Disarm))
    ∧ (∀ dreq k he ns rearm, rearm ≠ ArmState.Disarm →
        Ev.setState ArmState.Disarm ∉ cleanup dreq k he ns rearm ∧
        (cleanup dreq k he ns rearm).getLast? = some (Ev.setState ArmState.Busy)) := by
  have hrearm : ∀ st rearm, (requestDisarming st rearm).rearmState = rearm := by
    intro st rearm
    by_cases h : st.disarmRequested = false <;> simp [requestDisarming, h]
  refine ⟨hrearm, ?_, ?_, ?_, ?_, ?_⟩
  · intro st rearm h
    simp [requestDisarming, h]
  · intro st v hv hns
    have hval : ¬(v ≠ 0 ∧ v ≠ 1 ∧ v ≠ 2) := by
      rcases hv with h | h | h <;> simp [h]
    unfold writeInt32ArmRequest handleArmRequest
    rw [if_neg hval, if_neg (by simpa using hns)]
  · intro st ws
    induction ws generalizing st with
    | nil => simp
    | cons w ws ih =>
      rw [List.foldl_cons, ih]
      cases ws with
      | nil => simp [hrearm]
      | cons w2 ws2 =>
        obtain ⟨x, hx⟩ : ∃ x, (w2 :: ws2).getLast? = some x :=
          Option.isSome_iff_exists.mp (by simp [List.getLast?_isSome])
        simp [List.getLast?_cons_cons, hx]
  · intro dreq k he ns
    cases h1 : (he && !(dreq k)) <;> cases h2 : ns <;>
      simp [cleanup, h1, h2]
  · intro dreq k he ns rearm hr
    cases h1 : (he && !(dreq k)) <;> cases h2 : ns <;>
      simp [cleanup, h1, h2, hr]

/-- Witness for C6 at concrete inputs: a second disarm-request write
only rewrites the rearm target, a sequence of writes keeps the last
target, and a non-Disarm pending target ends cleanup publishing Busy
and never publishing Disarm. -/
theorem C6_arm_request_coalescing_witness :
    wst1.disarmRequested = true ∧
    requestDisarming wst1 ArmState.PostTrigger =
      { wst1 with rearmState := ArmState.PostTrigger } ∧
    (List.foldl requestDisarming wst1
      [ArmState.PostTrigger, ArmState.Disarm, ArmState.PrePostTrigger]).rearmState =
      ArmState.PrePostTrigger ∧
    ArmState.PrePostTrigger ≠ ArmState.Disarm ∧
    Ev.setState ArmState.Disarm ∉
      cleanup (fun _ => true) 0 false true ArmState.PrePostTrigger ∧
    (cleanup (fun _ => true) 0 false true ArmState.PrePostTrigger).getLast? =
      some (Ev.setState ArmState.Busy) :=
  ⟨by decide,
    C6_arm_request_coalescing.2.1 wst1 ArmState.PostTrigger (by decide),
    by rw [C6_arm_request_coalescing.2.2.2.1 wst1
      [ArmState.PostTrigger, ArmState.Disarm, ArmState.PrePostTrigger]]; decide,
    by decide,
    (C6_arm_request_coalescing.2.2.2.2.2 (fun _ => true) 0 false true
      ArmState.PrePostTrigger (by decide)).1,
    (C6_arm_request_coalescing.2.2.2.2.2 (fun _ => true) 0 false true
      ArmState.PrePostTrigger (by decide)).2⟩

/-! ## Trace lemmas for the read-thread iteration -/

/-- The burst loop exits immediately when currentRemBursts is 0. -/
theorem innerLoop_exit_zero (dreq : Nat → Bool) (reads : List Bool)
    (ovfs : List (Option (Bool × Int))) (procs : List Bool) (k : Nat) (r : Int)
    (ovf : Bool) :
    innerLoop dreq reads ovfs procs k 0 r ovf =
      ([], InnerRes.exit k r ovf reads ovfs procs) := by
  cases reads <;> simp [innerLoop]

/-- Every event of a burst-loop trace is a readBurst, checkOverflow or
processBurstData event. -/
theorem innerLoop_all_burstEv (dreq : Nat → Bool) :
    ∀ (reads : List Bool) (ovfs : List (Option (Bool × Int))) (procs : List Bool)
      (k : Nat) (c r : Int) (ovf : Bool),
      ((innerLoop dreq reads ovfs procs k c r ovf).1).all isBurstEv = true := by
  intro reads
  induction reads with
  | nil =>
    intro ovfs procs k c r ovf
    by_cases hc : c = 0 <;> simp [innerLoop, hc, isBurstEv]
  | cons rb reads1 ih =>
    intro ovfs procs k c r ovf
    by_cases hc : c = 0
    · simp [innerLoop, hc]
    · cases hrb : rb
      · simp [innerLoop, hc, hrb, isBurstEv]
      · cases hdk : dreq k
        · cases hovf : ovf
          · cases ovfs with
            | nil => simp [innerLoop, hc, hrb, hdk, hovf, isBurstEv]
            | cons o ovfs1 =>
              cases o with
              | none => simp [innerLoop, hc, hrb, hdk, hovf, isBurstEv]
              | some pr =>
                obtain ⟨had, nb⟩ := pr
                cases procs with
                | nil => simp [innerLoop, hc, hrb, hdk, hovf, isBurstEv]
                | cons pb procs1 =>
                  cases hpb : pb <;>
                    simp [innerLoop, hc, hrb, hdk, hovf, hpb, isBurstEv, ih]
          · cases procs with
            | nil => simp [innerLoop, hc, hrb, hdk, hovf, isBurstEv]
            | cons pb procs1 =>
              cases hpb : pb <;>
                simp [innerLoop, hc, hrb, hdk, hovf, hpb, isBurstEv, ih]
        · simp [innerLoop, hc, hrb, hdk, isBurstEv]

/-- Pointwise version of innerLoop_all_burstEv. -/
theorem innerLoop_mem_burstEv (dreq : Nat → Bool) (reads : List Bool)
    (ovfs : List (Option (Bool × Int))) (procs : List Bool) (k : Nat) (c r : Int)
    (ovf : Bool) :
    ∀ e ∈ (innerLoop dreq reads ovfs procs k c r ovf).1, isBurstEv e = true :=
  List.all_eq_true.mp (innerLoop_all_burstEv dreq reads ovfs procs k c r ovf)

/-- Every event of an outer-loop trace is a burst-loop event, a
startAcquisition call, or the publication of the requested arm state. -/
theorem outerLoop_all_evOk (dreq : Nat → Bool) (reqState : ArmState) :
    ∀ (starts reads : List Bool) (ovfs : List (Option (Bool × Int)))
      (procs : List Bool) (k : Nat) (r : Int) (ovf needStop : Bool),
      ((outerLoop dreq reqState starts reads ovfs procs k r ovf needStop).1).all
        (outerEvOk reqState) = true := by
  intro starts
  induction starts with
  | nil =>
    intro reads ovfs procs k r ovf needStop
    cases hdk : dreq k <;>
      simp [outerLoop, hdk, outerEvOk, isStart, isBurstEv]
  | cons s starts1 ih =>
    intro reads ovfs procs k r ovf needStop
    cases hdk : dreq k
    · cases hs : s
      · simp [outerLoop, hdk, hs, outerEvOk, isStart, isBurstEv]
      · cases hdk1 : dreq (k + 1)
        · rcases hInner : innerLoop dreq reads ovfs procs (k + 2) r r false
            with ⟨tr, res⟩
          have htr : ∀ e ∈ tr, isBurstEv e = true := by
            have h0 := innerLoop_all_burstEv dreq reads ovfs procs (k + 2) r r false
            rw [hInner] at h0
            exact List.all_eq_true.mp h0
          have htrOk : tr.all (outerEvOk reqState) = true :=
            List.all_eq_true.mpr (fun e he => by simp [outerEvOk, htr e he])
          cases res with
          | err k2 =>
            cases hovf : ovf <;>
              simp [outerLoop, hdk, hs, hdk1, hovf, hInner, List.all_append,
                htrOk, outerEvOk, isStart, isBurstEv]
          | stopped k2 =>
            cases hovf : ovf <;>
              simp [outerLoop, hdk, hs, hdk1, hovf, hInner, List.all_append,
                htrOk, outerEvOk, isStart, isBurstEv]
          | exit k2 r2 ovf2 reads2 ovfs2 procs2 =>
            by_cases hr2 : r2 = 0
            · cases hovf : ovf <;>
                simp [outerLoop, hdk, hs, hdk1, hovf, hInner, hr2, List.all_append,
                  htrOk, outerEvOk, isStart, isBurstEv]
            · cases hovf : ovf <;>
                simp [outerLoop, hdk, hs, hdk1, hovf, hInner, hr2, List.all_append,
                  htrOk, outerEvOk, isStart, isBurstEv, ih]
        · cases hovf : ovf <;>
            simp [outerLoop, hdk, hs, hdk1, hovf, outerEvOk, isStart, isBurstEv]
    · simp [outerLoop, hdk]

/-- Pointwise version of outerLoop_all_evOk. -/
theorem outerLoop_mem_evOk (dreq : Nat → Bool) (reqState : ArmState)
    (starts reads : List Bool) (ovfs : List (Option (Bool × Int)))
    (procs : List Bool) (k : Nat) (r : Int) (ovf needStop : Bool) :
    ∀ e ∈ (outerLoop dreq reqState starts reads ovfs procs k r ovf needStop).1,
      outerEvOk reqState e = true :=
  List.all_eq_true.mp
    (outerLoop_all_evOk dreq reqState starts reads ovfs procs k r ovf needStop)

/-- The outer loop never emits a stopAcquisition event. -/
theorem outerLoop_countStop (dreq : Nat → Bool) (reqState : ArmState)
    (starts reads : List Bool) (ovfs : List (Option (Bool × Int)))
    (procs : List Bool) (k : Nat) (r : Int) (ovf needStop : Bool) :
    ((outerLoop dreq reqState starts reads ovfs procs k r ovf needStop).1).countP
      isStop = 0 := by
  refine List.countP_eq_zero.mpr (fun e he => ?_)
  have h0 := outerLoop_mem_evOk dreq reqState starts reads ovfs procs k r ovf
    needStop e he
  cases e <;> simp_all [outerEvOk, isBurstEv, isStart, isStop]

/-- The outer-loop result says a stop is needed exactly when a stop was
already needed or a startAcquisition call was made. -/
theorem outerLoop_needStop_iff (dreq : Nat → Bool) (reqState : ArmState) :
    ∀ (starts reads : List Bool) (ovfs : List (Option (Bool × Int)))
      (procs : List Bool) (k : Nat) (r : Int) (ovf needStop : Bool),
      (((outerLoop dreq reqState starts reads ovfs procs k r ovf needStop).2).needStop
          = true ↔
        (needStop = true ∨
          0 < ((outerLoop dreq reqState starts reads ovfs procs k r ovf
            needStop).1).countP isStart)) := by
  intro starts
  induction starts with
  | nil =>
    intro reads ovfs procs k r ovf needStop
    cases hdk : dreq k <;>
      simp [outerLoop, hdk, OuterRes.needStop, List.countP_cons, isStart]
  | cons s starts1 ih =>
    intro reads ovfs procs k r ovf needStop
    cases hdk : dreq k
    · cases hs : s
      · simp [outerLoop, hdk, hs, OuterRes.needStop, List.countP_cons, isStart]
      · cases hdk1 : dreq (k + 1)
        · rcases hInner : innerLoop dreq reads ovfs procs (k + 2) r r false
            with ⟨tr, res⟩
          cases res with
          | err k2 =>
            cases hovf : ovf <;>
              simp [outerLoop, hdk, hs, hdk1, hovf, hInner, OuterRes.needStop,
                List.countP_cons, List.countP_append, isStart]
          | stopped k2 =>
            cases hovf : ovf <;>
              simp [outerLoop, hdk, hs, hdk1, hovf, hInner, OuterRes.needStop,
                List.countP_cons, List.countP_append, isStart]
          | exit k2 r2 ovf2 reads2 ovfs2 procs2 =>
            by_cases hr2 : r2 = 0
            · cases hovf : ovf <;>
                simp [outerLoop, hdk, hs, hdk1, hovf, hInner, hr2,
                  OuterRes.needStop, List.countP_cons, List.countP_append, isStart]
            · have hrec := (ih reads2 ovfs2 procs2 k2 r2 true true).mpr (Or.inl rfl)
              rcases hOut : outerLoop dreq reqState starts1 reads2 ovfs2 procs2 k2 r2
                true true with ⟨tr3, res3⟩
              rw [hOut] at hrec
              cases res3 <;> cases hovf : ovf <;>
                simp_all [outerLoop, hdk1, hInner, hr2, OuterRes.needStop,
                  List.countP_cons, List.countP_append, isStart]
        · cases hovf : ovf <;>
            simp [outerLoop, hdk, hs, hdk1, hovf, OuterRes.needStop,
              List.countP_cons, isStart]
    · simp [outerLoop, hdk, OuterRes.needStop]

/-- Counts and ordering facts about the cleanup trace: it contains one
stopAcquisition call exactly when need_stop_acquisition is set, no
startAcquisition, readBurst or processBurstData calls, no stop after a
published Disarm, and no adapter acquisition call after the stop. -/
theorem cleanup_facts (dreq : Nat → Bool) (k : Nat) (he ns : Bool)
    (rearm : ArmState) :
    (cleanup dreq k he ns rearm).countP isStop = (if ns then 1 else 0) ∧
    (cleanup dreq k he ns rearm).countP isStart = 0 ∧
    (cleanup dreq k he ns rearm).countP isReadOk = 0 ∧
    (cleanup dreq k he ns rearm).countP isProcOk = 0 ∧
    noStopAfterDisarm (cleanup dreq k he ns rearm) = true ∧
    noAcqCallAfterStop (cleanup dreq k he ns rearm) = true := by
  cases h1 : (he && !(dreq k)) <;> cases h2 : ns <;>
    by_cases hr : rearm = ArmState.Disarm <;>
    simp only [cleanup, h1, h2, hr, if_true, if_false, ite_true, ite_false] <;>
    decide

/-- Prepending an event other than a published Disarm transition does
not affect noStopAfterDisarm. -/
theorem noStopAfterDisarm_cons (e : Ev) (tr : List Ev)
    (he : e ≠ Ev.setState ArmState.Disarm) :
    noStopAfterDisarm (e :: tr) = noStopAfterDisarm tr := by
  cases e with
  | setState s => cases s <;> simp_all [noStopAfterDisarm]
  | setEffective b => rfl
  | startAcq o k => rfl
  | readB o => rfl
  | chkOvf o => rfl
  | procB o => rfl
  | stopAcq => rfl
  | waitDisarm => rfl

/-- noStopAfterDisarm over an append whose prefix publishes no Disarm. -/
theorem noStopAfterDisarm_append (a b : List Ev)
    (ha : ∀ e ∈ a, e ≠ Ev.setState ArmState.Disarm) :
    noStopAfterDisarm (a ++ b) = noStopAfterDisarm b := by
  induction a with
  | nil => rfl
  | cons e a ih =>
    rw [List.cons_append, noStopAfterDisarm_cons e _ (ha e (by simp)),
      ih (fun x hx => ha x (by simp [hx]))]

/-- Prepending an event other than a stopAcquisition call does not
affect noAcqCallAfterStop. -/
theorem noAcqCallAfterStop_cons (e : Ev) (tr : List Ev)
    (he : e ≠ Ev.stopAcq) :
    noAcqCallAfterStop (e :: tr) = noAcqCallAfterStop tr := by
  cases e <;> simp_all [noAcqCallAfterStop]

/-- noAcqCallAfterStop over an append whose prefix contains no stop. -/
theorem noAcqCallAfterStop_append (a b : List Ev)
    (ha : ∀ e ∈ a, e ≠ Ev.stopAcq) :
    noAcqCallAfterStop (a ++ b) = noAcqCallAfterStop b := by
  induction a with
  | nil => rfl
  | cons e a ih =>
    rw [List.cons_append, noAcqCallAfterStop_cons e _ (ha e (by simp)),
      ih (fun x hx => ha x (by simp [hx]))]

/-- evsOk splits over an append. -/
theorem evsOk_append (P : ArmState × Bool → Bool) (a b : List Ev) :
    ∀ st : ArmState × Bool,
      evsOk P st (a ++ b) = (evsOk P st a && evsOk P (List.foldl stepSt st a) b) := by
  induction a with
  | nil => intro st; simp [evsOk]
  | cons e a ih =>
    intro st
    simp [evsOk, ih, List.foldl_cons, Bool.and_assoc]

/-- A step by an event that does not publish Disarm keeps the published
state away from Disarm. -/
theorem stepSt_fst_ne_disarm (st : ArmState × Bool) (e : Ev)
    (he : e ≠ Ev.setState ArmState.Disarm) (hs : st.1 ≠ ArmState.Disarm) :
    (stepSt st e).1 ≠ ArmState.Disarm := by
  cases e with
  | setState s =>
    simp only [stepSt]
    intro hcon
    exact he (by rw [hcon])
  | setEffective b => exact hs
  | startAcq o k => exact hs
  | readB o => exact hs
  | chkOvf o => exact hs
  | procB o => exact hs
  | stopAcq => exact hs
  | waitDisarm => exact hs

/-- Along a trace that never publishes Disarm, starting from a
non-Disarm state, every state satisfies the Disarm-implies-invalid
predicate. -/
theorem evsOk_of_no_disarm (tr : List Ev) :
    ∀ st : ArmState × Bool, (∀ e ∈ tr, e ≠ Ev.setState ArmState.Disarm) →
      st.1 ≠ ArmState.Disarm → evsOk disarmInvalidPred st tr = true := by
  induction tr with
  | nil => intro st _ _; rfl
  | cons e tr ih =>
    intro st h hs
    have hst1 : (stepSt st e).1 ≠ ArmState.Disarm :=
      stepSt_fst_ne_disarm st e (h e (by simp)) hs
    simp only [evsOk, Bool.and_eq_true]
    exact ⟨by simp [disarmInvalidPred, hst1],
      ih _ (fun x hx => h x (by simp [hx])) hst1⟩

/-- Folding a trace that never publishes Disarm keeps the published
state away from Disarm. -/
theorem foldSt_no_disarm (tr : List Ev) :
    ∀ st : ArmState × Bool, (∀ e ∈ tr, e ≠ Ev.setState ArmState.Disarm) →
      st.1 ≠ ArmState.Disarm → (List.foldl stepSt st tr).1 ≠ ArmState.Disarm := by
  induction tr with
  | nil => intro st _ hs; exact hs
  | cons e tr ih =>
    intro st h hs
    rw [List.foldl_cons]
    exact ih _ (fun x hx => h x (by simp [hx]))
      (stepSt_fst_ne_disarm st e (h e (by simp)) hs)

/-- Every state along a cleanup trace started from a non-Disarm state
satisfies the Disarm-implies-invalid predicate: the effective
parameters are reset to invalid before the final state transition. -/
theorem cleanup_evsOk (dreq : Nat → Bool) (k : Nat) (he ns : Bool)
    (rearm : ArmState) (st : ArmState × Bool) (hs : st.1 ≠ ArmState.Disarm) :
    evsOk disarmInvalidPred st (cleanup dreq k he ns rearm) = true := by
  cases h1 : (he && !(dreq k)) <;> cases h2 : ns <;>
    by_cases hr : rearm = ArmState.Disarm <;>
    simp [cleanup, h1, h2, hr, evsOk, stepSt, disarmInvalidPred, hs]

/-- The burst loop under an all-success script and no disarm request:
it exits normally with currentRemBursts 0, processes exactly r - r2
bursts (one successful readBurst and one successful processBurstData
each), leaves remainingBursts r2 with 0 ≤ r2 < r, sets the overflow
flag whenever r2 is not 0, and preserves the script properties of the
unconsumed suffixes.  The hypotheses mirror the loop state: c is
positive, c ≤ r, and c = r unless the overflow flag is set (the
clamping of c is the only way c diverges from r and it sets the flag). -/
theorem innerLoop_all_success (dreq : Nat → Bool) (hdreq : ∀ k2, dreq k2 = false) :
    ∀ (reads : List Bool) (ovfs : List (Option (Bool × Int))) (procs : List Bool)
      (k : Nat) (c r : Int) (ovf : Bool),
      0 < c → c ≤ r → (ovf = false → c = r) →
      (∀ b ∈ reads, b = true) → r.toNat ≤ reads.length →
      (∀ o ∈ ovfs, ∃ had nb, o = some (had, nb) ∧ 1 ≤ nb) → r.toNat ≤ ovfs.length →
      (∀ b ∈ procs, b = true) → r.toNat ≤ procs.length →
      ∃ tr k2 r2 ovf2 reads2 ovfs2 procs2,
        innerLoop dreq reads ovfs procs k c r ovf =
          (tr, InnerRes.exit k2 r2 ovf2 reads2 ovfs2 procs2) ∧
        tr.countP isProcOk = (r - r2).toNat ∧
        tr.countP isReadOk = (r - r2).toNat ∧
        0 ≤ r2 ∧ r2 < r ∧ (r2 ≠ 0 → ovf2 = true) ∧
        (∀ b ∈ reads2, b = true) ∧ r2.toNat ≤ reads2.length ∧
        (∀ o ∈ ovfs2, ∃ had nb, o = some (had, nb) ∧ 1 ≤ nb) ∧
        r2.toNat ≤ ovfs2.length ∧
        (∀ b ∈ procs2, b = true) ∧ r2.toNat ≤ procs2.length := by
  intro reads
  induction reads with
  | nil =>
    intro ovfs procs k c r ovf hc hcr _ _ hlen _ _ _ _
    simp only [List.length_nil] at hlen
    omega
  | cons rb reads1 ih =>
    intro ovfs procs k c r ovf hc hcr hinv hreads hreadsLen hovfs hovfsLen hprocs
      hprocsLen
    have hrb : rb = true := hreads rb (by simp)
    subst hrb
    have hreads1 : ∀ b ∈ reads1, b = true := fun b hb => hreads b (by simp [hb])
    have hr1 : 1 ≤ r := le_trans hc hcr
    have hc0 : ¬(c = 0) := by omega
    have hcpos : 0 < c := hc
    have hrpos : 0 < r := by omega
    simp only [List.length_cons] at hreadsLen
    cases procs with
    | nil => simp only [List.length_nil] at hprocsLen; omega
    | cons pb procs1 =>
    have hpb : pb = true := hprocs pb (by simp)
    subst hpb
    have hprocs1 : ∀ b ∈ procs1, b = true := fun b hb => hprocs b (by simp [hb])
    simp only [List.length_cons] at hprocsLen
    cases hovf : ovf with
    | true =>
      by_cases hc1 : c - 1 = 0
      · refine ⟨[Ev.readB true, Ev.procB true], k + 1, r - 1, true, reads1, ovfs,
          procs1, ?_, ?_, ?_, by omega, by omega, fun _ => rfl, hreads1, by omega,
          hovfs, by omega, hprocs1, by omega⟩
        · simp only [innerLoop]
          rw [if_neg hc0]
          simp [hdreq, hcpos, hrpos, hc1, innerLoop_exit_zero]
        · simp [List.countP_cons, isProcOk]
        · simp [List.countP_cons, isReadOk]
      · obtain ⟨tr, k2, r2, ovf2, reads2, ovfs2, procs2, heq, hcp, hcread, hr20,
          hr2lt, hr2ovf, h1, h2, h3, h4, h5, h6⟩ :=
          ih ovfs procs1 (k + 1) (c - 1) (r - 1) true (by omega) (by omega)
            (by simp) hreads1 (by omega) hovfs (by omega) hprocs1 (by omega)
        refine ⟨Ev.readB true :: Ev.procB true :: tr, k2, r2, ovf2, reads2, ovfs2,
          procs2, ?_, ?_, ?_, hr20, by omega, hr2ovf, h1, h2, h3, h4, h5, h6⟩
        · simp only [innerLoop]
          rw [if_neg hc0]
          simp [hdreq, hcpos, hrpos, heq]
        · simp [List.countP_cons, isProcOk, hcp]; omega
        · simp [List.countP_cons, isReadOk, hcread]; omega
    | false =>
      have hceq : c = r := hinv hovf
      cases ovfs with
      | nil => simp only [List.length_nil] at hovfsLen; omega
      | cons o ovfs1 =>
      obtain ⟨had, nb, ho, hnb⟩ := hovfs o (by simp)
      subst ho
      have hovfs1 : ∀ x ∈ ovfs1, ∃ had2 nb2, x = some (had2, nb2) ∧ 1 ≤ nb2 :=
        fun x hx => hovfs x (by simp [hx])
      simp only [List.length_cons] at hovfsLen
      have hclt : ¬(c < 0) := by omega
      cases hhad : had with
      | false =>
        by_cases hc1 : c - 1 = 0
        · have hrz : r - 1 = 0 := by omega
          refine ⟨[Ev.readB true, Ev.chkOvf (some (false, nb)), Ev.procB true],
            k + 1, r - 1, false, reads1, ovfs1, procs1, ?_, ?_, ?_, by omega,
            by omega, fun hcon => absurd hrz hcon, hreads1, by omega, hovfs1,
            by omega, hprocs1, by omega⟩
          · simp only [innerLoop]
            rw [if_neg hc0]
            simp [hdreq, hcpos, hrpos, hc1, innerLoop_exit_zero]
          · simp [List.countP_cons, isProcOk]
          · simp [List.countP_cons, isReadOk]
        · obtain ⟨tr, k2, r2, ovf2, reads2, ovfs2, procs2, heq, hcp, hcread, hr20,
            hr2lt, hr2ovf, h1, h2, h3, h4, h5, h6⟩ :=
            ih ovfs1 procs1 (k + 1) (c - 1) (r - 1) false (by omega) (by omega)
              (fun _ => by omega) hreads1 (by omega) hovfs1 (by omega) hprocs1
              (by omega)
          refine ⟨Ev.readB true :: Ev.chkOvf (some (false, nb)) :: Ev.procB true ::
            tr, k2, r2, ovf2, reads2, ovfs2, procs2, ?_, ?_, ?_, hr20, by omega,
            hr2ovf, h1, h2, h3, h4, h5, h6⟩
          · simp only [innerLoop]
            rw [if_neg hc0]
            simp [hdreq, hcpos, hrpos, heq]
          · simp [List.countP_cons, isProcOk, hcp]; omega
          · simp [List.countP_cons, isReadOk, hcread]; omega
      | true =>
        have hm1 : 1 ≤ min c nb := le_min hc (by omega)
        have hmc : min c nb ≤ c := min_le_left c nb
        have hnbpos : 0 < nb := by omega
        by_cases hc1 : min c nb - 1 = 0
        · refine ⟨[Ev.readB true, Ev.chkOvf (some (true, nb)), Ev.procB true],
            k + 1, r - 1, true, reads1, ovfs1, procs1, ?_, ?_, ?_, by omega,
            by omega, fun _ => rfl, hreads1, by omega, hovfs1, by omega, hprocs1,
            by omega⟩
          · simp only [innerLoop]
            rw [if_neg hc0]
            simp [hdreq, hcpos, hrpos, hclt, hnbpos, hc1, innerLoop_exit_zero]
          · simp [List.countP_cons, isProcOk]
          · simp [List.countP_cons, isReadOk]
        · obtain ⟨tr, k2, r2, ovf2, reads2, ovfs2, procs2, heq, hcp, hcread, hr20,
            hr2lt, hr2ovf, h1, h2, h3, h4, h5, h6⟩ :=
            ih ovfs1 procs1 (k + 1) (min c nb - 1) (r - 1) true (by omega)
              (by omega) (by simp) hreads1 (by omega) hovfs1 (by omega) hprocs1
              (by omega)
          refine ⟨Ev.readB true :: Ev.chkOvf (some (true, nb)) :: Ev.procB true ::
            tr, k2, r2, ovf2, reads2, ovfs2, procs2, ?_, ?_, ?_, hr20, by omega,
            hr2ovf, h1, h2, h3, h4, h5, h6⟩
          · simp only [innerLoop]
            rw [if_neg hc0]
            simp [hdreq, hcpos, hrpos, hclt, hnbpos, heq]
          · simp [List.countP_cons, isProcOk, hcp]; omega
          · simp [List.countP_cons, isReadOk, hcread]; omega

/-- The outer acquire-and-read loop under an all-success script and no
disarm request, entered with positive remainingBursts r: it stops
cleanly (having set need_stop_acquisition) after processing exactly r
bursts in total across all overflow-recovery restarts. -/
theorem outerLoop_all_success (dreq : Nat → Bool) (hdreq : ∀ k2, dreq k2 = false)
    (reqState : ArmState) :
    ∀ (starts reads : List Bool) (ovfs : List (Option (Bool × Int)))
      (procs : List Bool) (k : Nat) (r : Int) (ovf needStop : Bool),
      0 < r →
      (∀ b ∈ starts, b = true) → r.toNat ≤ starts.length →
      (∀ b ∈ reads, b = true) → r.toNat ≤ reads.length →
      (∀ o ∈ ovfs, ∃ had nb, o = some (had, nb) ∧ 1 ≤ nb) → r.toNat ≤ ovfs.length →
      (∀ b ∈ procs, b = true) → r.toNat ≤ procs.length →
      ∃ tr k2, outerLoop dreq reqState starts reads ovfs procs k r ovf needStop =
          (tr, OuterRes.stopped k2 true) ∧
        tr.countP isProcOk = r.toNat ∧ tr.countP isReadOk = r.toNat := by
  intro starts
  induction starts with
  | nil =>
    intro reads ovfs procs k r ovf needStop hr _ hlen _ _ _ _ _ _
    simp only [List.length_nil] at hlen
    omega
  | cons s starts1 ih =>
    intro reads ovfs procs k r ovf needStop hr hstarts hstartsLen hreads hreadsLen
      hovfs hovfsLen hprocs hprocsLen
    have hs : s = true := hstarts s (by simp)
    subst hs
    have hstarts1 : ∀ b ∈ starts1, b = true := fun b hb => hstarts b (by simp [hb])
    simp only [List.length_cons] at hstartsLen
    obtain ⟨tr, k2, r2, ovf2, reads2, ovfs2, procs2, heq, hcp, hcread, hr20, hr2lt,
      hr2ovf, h1, h2, h3, h4, h5, h6⟩ :=
      innerLoop_all_success dreq hdreq reads ovfs procs (k + 2) r r false hr le_rfl
        (fun _ => rfl) hreads hreadsLen hovfs hovfsLen hprocs hprocsLen
    by_cases hr2 : r2 = 0
    · subst hr2
      refine ⟨Ev.startAcq ovf true ::
        ((if ovf then [] else [Ev.setState reqState]) ++ tr), k2, ?_, ?_, ?_⟩
      · simp only [outerLoop]
        simp [hdreq, heq]
      · cases hovf : ovf <;>
          simp [List.countP_cons, List.countP_append, isProcOk, hcp]
      · cases hovf : ovf <;>
          simp [List.countP_cons, List.countP_append, isReadOk, hcread]
    · obtain ⟨tr3, k3, heq3, hcp3, hcread3⟩ :=
        ih reads2 ovfs2 procs2 k2 r2 true true (by omega) hstarts1 (by omega) h1
          (by omega) h3 (by omega) h5 (by omega)
      refine ⟨Ev.startAcq ovf true ::
        ((if ovf then [] else [Ev.setState reqState]) ++ tr ++ tr3), k3, ?_, ?_, ?_⟩
      · simp only [outerLoop]
        simp [hdreq, heq, hr2, heq3]
      · cases hovf : ovf <;>
          simp [List.countP_cons, List.countP_append, isProcOk, hcp, hcp3] <;> omega
      · cases hovf : ovf <;>
          simp [List.countP_cons, List.countP_append, isReadOk, hcread, hcread3] <;>
          omega

/-- Decomposition of one read-thread iteration: either a validation
stage failed and the trace is just the error cleanup (with no stop
needed), or the effective parameters were published and the outer loop
ran, followed by cleanup; the outer-loop trace contains no stop, its
events are outer-loop events, and need_stop_acquisition is set exactly
when a startAcquisition call was made. -/
theorem readThreadIteration_shape (sc : Script) :
    readThreadIteration sc = cleanup (dreqOf sc) 0 true false sc.finalRearm ∨
    ∃ tr k2 he ns,
      readThreadIteration sc =
        Ev.setEffective true :: tr ++ cleanup (dreqOf sc) k2 he ns sc.finalRearm ∧
      tr.countP isStop = 0 ∧
      (∀ e ∈ tr, outerEvOk sc.requestedState e = true) ∧
      (ns = true ↔ 0 < tr.countP isStart) ∧
      sc.waitPre = true ∧
      (checkBasicSettings sc.snap sc.requestedState sc.supportsPre).1 = true ∧
      sc.checkSettingsOk = true := by
  by_cases hw : sc.waitPre = false
  · left
    unfold readThreadIteration
    rw [if_pos hw]
  · by_cases hb : (checkBasicSettings sc.snap sc.requestedState sc.supportsPre).1
        = false
    · left
      unfold readThreadIteration
      rw [if_neg hw, if_pos hb]
    · by_cases hcs : sc.checkSettingsOk = false
      · left
        unfold readThreadIteration
        rw [if_neg hw, if_neg hb, if_pos hcs]
      · by_cases hnan : sc.rateIsNaN = true
        · left
          unfold readThreadIteration
          rw [if_neg hw, if_neg hb, if_neg hcs, if_pos hnan]
        · right
          rcases hout : outerLoop (dreqOf sc) sc.requestedState sc.starts sc.reads
            sc.ovfs sc.procs 0
            (if sc.snap.numBursts = 0 then -1 else sc.snap.numBursts) false false
            with ⟨tr, res⟩
          have hstop := outerLoop_countStop (dreqOf sc) sc.requestedState sc.starts
            sc.reads sc.ovfs sc.procs 0
            (if sc.snap.numBursts = 0 then -1 else sc.snap.numBursts) false false
          rw [hout] at hstop
          have hmem := outerLoop_mem_evOk (dreqOf sc) sc.requestedState sc.starts
            sc.reads sc.ovfs sc.procs 0
            (if sc.snap.numBursts = 0 then -1 else sc.snap.numBursts) false false
          rw [hout] at hmem
          have hns := outerLoop_needStop_iff (dreqOf sc) sc.requestedState sc.starts
            sc.reads sc.ovfs sc.procs 0
            (if sc.snap.numBursts = 0 then -1 else sc.snap.numBursts) false false
          rw [hout] at hns
          have hw2 : sc.waitPre = true := by revert hw; cases sc.waitPre <;> simp
          have hb2 : (checkBasicSettings sc.snap sc.requestedState
              sc.supportsPre).1 = true := by
            revert hb
            cases (checkBasicSettings sc.snap sc.requestedState sc.supportsPre).1 <;>
              simp
          have hcs2 : sc.checkSettingsOk = true := by
            revert hcs; cases sc.checkSettingsOk <;> simp
          cases res with
          | err k2 ns =>
            refine ⟨tr, k2, true, ns, ?_, hstop, hmem, ?_, hw2, hb2, hcs2⟩
            · unfold readThreadIteration
              rw [if_neg hw, if_neg hb, if_neg hcs, if_neg hnan]
              simp only [hout]
            · simpa [OuterRes.needStop] using hns
          | stopped k2 ns =>
            refine ⟨tr, k2, false, ns, ?_, hstop, hmem, ?_, hw2, hb2, hcs2⟩
            · unfold readThreadIteration
              rw [if_neg hw, if_neg hb, if_neg hcs, if_neg hnan]
              simp only [hout]
            · simpa [OuterRes.needStop] using hns

/-- When the requested arm state is not Disarm, the outer-loop trace
never publishes ARM_STATE = Disarm. -/
theorem outerEvOk_no_disarm (reqState : ArmState)
    (hreq : reqState ≠ ArmState.Disarm) (e : Ev)
    (he : outerEvOk reqState e = true) : e ≠ Ev.setState ArmState.Disarm := by
  intro hcon
  subst hcon
  simp [outerEvOk, isBurstEv, isStart] at he
  exact hreq he.symm

/-- Counterexample to claim C4: on the happy-path run the controller
publishes the effective parameters (setEffectiveParams, line 362) while
ARM_STATE is still Busy, before the transition to the requested armed
state (line 420); so there is a reachable time at which the state is
not PostTrigger/PrePostTrigger yet the effective parameters do not hold
their invalid values. -/
theorem C4_counterexample :
    armedStatesOk claimPredC4 (readThreadIteration scHappy) = false := by
  decide

/-- Claim C4 as amended: whenever the published ARM_STATE is Disarm,
every effective parameter holds its invalid value and
EFFECTIVE_SAMPLE_RATE reads NaN.  (While Busy - both during arming
after validation and during disarm cleanup - and while Error, the
effective parameters may still hold the armed values; they are reset to
invalid during cleanup, before Disarm is published.) -/
theorem C4_effective_invalid_when_disarmed (sc : Script)
    (hreq : sc.requestedState ≠ ArmState.Disarm) :
    armedStatesOk disarmInvalidPred (readThreadIteration sc) = true := by
  rcases readThreadIteration_shape sc with h | ⟨tr, k2, he, ns, h, _, hmem, _, _, _, _⟩
  · rw [armedStatesOk, h]
    rw [cleanup_evsOk (dreqOf sc) 0 true false sc.finalRearm (ArmState.Busy, false)
      (by decide)]
    decide
  · rw [armedStatesOk, h]
    have hnd : ∀ e ∈ tr, e ≠ Ev.setState ArmState.Disarm :=
      fun e hetr => outerEvOk_no_disarm sc.requestedState hreq e (hmem e hetr)
    have hpre : ∀ e ∈ (Ev.setEffective true :: tr),
        e ≠ Ev.setState ArmState.Disarm := by
      intro e hetr
      rcases List.mem_cons.mp hetr with h2 | h2
      · subst h2; decide
      · exact hnd e h2
    have h1 : evsOk disarmInvalidPred (ArmState.Busy, false)
        (Ev.setEffective true :: tr) = true :=
      evsOk_of_no_disarm _ _ hpre (by decide)
    have h2 : evsOk disarmInvalidPred
        (List.foldl stepSt (ArmState.Busy, false) (Ev.setEffective true :: tr))
        (cleanup (dreqOf sc) k2 he ns sc.finalRearm) = true :=
      cleanup_evsOk (dreqOf sc) k2 he ns sc.finalRearm _
        (foldSt_no_disarm _ _ hpre (by decide))
    rw [evsOk_append disarmInvalidPred (Ev.setEffective true :: tr) _ _, h1, h2]
    decide

/-- Witness for the amended C4 on the happy-path script. -/
theorem C4_effective_invalid_when_disarmed_witness :
    scHappy.requestedState ≠ ArmState.Disarm ∧
    armedStatesOk disarmInvalidPred (readThreadIteration scHappy) = true :=
  ⟨by decide, C4_effective_invalid_when_disarmed scHappy (by decide)⟩

/-- Auxiliary C2 facts for a trace that is just the early-error cleanup
(no startAcquisition was made, so no stopAcquisition is called). -/
theorem cleanup_C2_aux (dreq : Nat → Bool) (rearm : ArmState) :
    (cleanup dreq 0 true false rearm).countP isStop =
      (if (cleanup dreq 0 true false rearm).countP isStart = 0 then 0 else 1) ∧
    noStopAfterDisarm (cleanup dreq 0 true false rearm) = true ∧
    (cleanup dreq 0 true false rearm).countP isStart = 0 := by
  have h := cleanup_facts dreq 0 true false rearm
  refine ⟨?_, h.2.2.2.2.1, h.2.1⟩
  rw [h.1, h.2.1]
  simp

/-- Claim C2: over one arming, stopAcquisition is called exactly once
if any startAcquisition call was made and not at all otherwise; it is
never called after ARM_STATE = Disarm has been published; and an
arming aborted by waitForPreconditions, checkBasicSettings or
checkSettings never calls startAcquisition (hence never calls
stopAcquisition). -/
theorem C2_stop_iff_start (sc : Script)
    (hreq : sc.requestedState ≠ ArmState.Disarm) :
    ((readThreadIteration sc).countP isStop =
      if (readThreadIteration sc).countP isStart = 0 then 0 else 1) ∧
    noStopAfterDisarm (readThreadIteration sc) = true ∧
    ((sc.waitPre = false ∨
      (checkBasicSettings sc.snap sc.requestedState sc.supportsPre).1 = false ∨
      sc.checkSettingsOk = false) →
      (readThreadIteration sc).countP isStart = 0) := by
  rcases readThreadIteration_shape sc
    with h | ⟨tr, k2, he, ns, h, hstop, hmem, hns, hw2, hb2, hcs2⟩
  · rw [h]
    have haux := cleanup_C2_aux (dreqOf sc) sc.finalRearm
    exact ⟨haux.1, haux.2.1, fun _ => haux.2.2⟩
  · have hcl := cleanup_facts (dreqOf sc) k2 he ns sc.finalRearm
    have hcountStop : (readThreadIteration sc).countP isStop =
        (if ns then 1 else 0) := by
      rw [h, List.countP_append, List.countP_cons, hstop, hcl.1]
      simp [isStop]
    have hcountStart : (readThreadIteration sc).countP isStart =
        tr.countP isStart := by
      rw [h, List.countP_append, List.countP_cons, hcl.2.1]
      simp [isStart]
    refine ⟨?_, ?_, ?_⟩
    · rw [hcountStop, hcountStart]
      by_cases hz : tr.countP isStart = 0
      · rw [if_pos hz]
        have hnsf : ns = false := by
          cases hb2 : ns
          · rfl
          · exact absurd (hns.mp hb2) (by omega)
        rw [hnsf]
        simp
      · rw [if_neg hz]
        have hnst : ns = true := hns.mpr (by omega)
        rw [hnst]
        simp
    · rw [h]
      have hpre : ∀ e ∈ (Ev.setEffective true :: tr),
          e ≠ Ev.setState ArmState.Disarm := by
        intro e hetr
        rcases List.mem_cons.mp hetr with h2 | h2
        · subst h2; decide
        · exact outerEvOk_no_disarm sc.requestedState hreq e (hmem e h2)
      rw [noStopAfterDisarm_append _ _ hpre]
      exact hcl.2.2.2.2.1
    · -- the main branch only runs when all validation stages passed
      intro hcon
      exfalso
      rcases hcon with h2 | h2 | h2
      · rw [hw2] at h2; exact absurd h2 (by decide)
      · rw [hb2] at h2; exact absurd h2 (by decide)
      · rw [hcs2] at h2; exact absurd h2 (by decide)

/-- Witness for C2 on the happy-path script. -/
theorem C2_stop_iff_start_witness :
    scHappy.requestedState ≠ ArmState.Disarm ∧
    (((readThreadIteration scHappy).countP isStop =
      if (readThreadIteration scHappy).countP isStart = 0 then 0 else 1) ∧
    noStopAfterDisarm (readThreadIteration scHappy) = true ∧
    ((scHappy.waitPre = false ∨
      (checkBasicSettings scHappy.snap scHappy.requestedState
        scHappy.supportsPre).1 = false ∨
      scHappy.checkSettingsOk = false) →
      (readThreadIteration scHappy).countP isStart = 0)) :=
  ⟨by decide, C2_stop_iff_start scHappy (by decide)⟩

/-- Counterexample to claim C3: in the concrete overflow-recovery run
(specification scenario 4) the recovery restart startAcquisition with
overflow=true does occur, further bursts are read after it, but no
stopAcquisition call precedes it - contradicting the claim that
stop_acquisition is called (and then start_acquisition) before any
further burst is read. -/
theorem C3_counterexample :
    Ev.startAcq true true ∈ readThreadIteration scOverflow ∧
    ((readThreadIteration scOverflow).takeWhile
      (fun e => !(e == Ev.startAcq true true))).countP isStop = 0 ∧
    0 < ((readThreadIteration scOverflow).dropWhile
      (fun e => !(e == Ev.startAcq true true))).countP isReadOk := by
  decide

/-- Claim C3 as amended: during overflow recovery the framework calls
start_acquisition again with overflow=true, after the clamped remaining
bursts have been processed and before any further burst is read, with
NO intervening stop_acquisition: stop_acquisition is called at most
once per arming, during final cleanup, after which no adapter
acquisition call occurs.  The concrete conjuncts exhibit this on
scenario 4: before the restart event exactly the 4 clamped bursts are
processed and no stop occurs; the remaining 6 bursts are read after it;
the single stop happens later. -/
theorem C3_recovery_restart_ordering :
    (∀ sc : Script, (readThreadIteration sc).countP isStop ≤ 1 ∧
      noAcqCallAfterStop (readThreadIteration sc) = true) ∧
    Ev.startAcq true true ∈ readThreadIteration scOverflow ∧
    ((readThreadIteration scOverflow).takeWhile
      (fun e => !(e == Ev.startAcq true true))).countP isProcOk = 4 ∧
    ((readThreadIteration scOverflow).takeWhile
      (fun e => !(e == Ev.startAcq true true))).countP isStop = 0 ∧
    ((readThreadIteration scOverflow).dropWhile
      (fun e => !(e == Ev.startAcq true true))).countP isReadOk = 6 ∧
    (readThreadIteration scOverflow).countP isStop = 1 := by
  refine ⟨?_, by decide, by decide, by decide, by decide, by decide⟩
  intro sc
  rcases readThreadIteration_shape sc
    with h | ⟨tr, k2, he, ns, h, hstop, _, _, _, _, _⟩
  · rw [h]
    have hcl := cleanup_facts (dreqOf sc) 0 true false sc.finalRearm
    refine ⟨?_, hcl.2.2.2.2.2⟩
    rw [hcl.1]
    simp
  · rw [h]
    have hcl := cleanup_facts (dreqOf sc) k2 he ns sc.finalRearm
    have hpre : ∀ e ∈ (Ev.setEffective true :: tr), e ≠ Ev.stopAcq := by
      intro e hetr
      rcases List.mem_cons.mp hetr with h2 | h2
      · subst h2; decide
      · intro hcon
        subst hcon
        have h3 := List.countP_eq_zero.mp hstop _ h2
        simp [isStop] at h3
    constructor
    · rw [List.countP_append, List.countP_cons, hstop, hcl.1]
      cases ns <;> simp [isStop]
    · rw [noAcqCallAfterStop_append _ _ hpre]
      exact hcl.2.2.2.2.2

/-- Claim C1: for an arming whose snapshot num_bursts is K > 0, when
every startAcquisition, readBurst, checkOverflow and processBurstData
call succeeds (each checkOverflow result carrying num_buffer_bursts at
least 1, as the code asserts), an overflow is reported somewhere in the
run and no disarm is requested, exactly K bursts are read and processed
in total across all acquisition restart cycles: remainingBursts is
decremented exactly once per processed burst, is unaffected by the
clamping of currentRemBursts to num_buffer_bursts, and the outer loop
restarts acquisition until remainingBursts reaches 0. -/
theorem C1_overflow_preserves_burst_count (sc : Script) (K : Nat) (hK : 0 < K)
    (hsnap : sc.snap.numBursts = (K : Int))
    (hwait : sc.waitPre = true)
    (hbasic : (checkBasicSettings sc.snap sc.requestedState sc.supportsPre).1
      = true)
    (hcs : sc.checkSettingsOk = true)
    (hnan : sc.rateIsNaN = false)
    (hdis : sc.disarmAfter = none)
    (hstarts : ∀ b ∈ sc.starts, b = true) (hstartsLen : K ≤ sc.starts.length)
    (hreads : ∀ b ∈ sc.reads, b = true) (hreadsLen : K ≤ sc.reads.length)
    (hovfs : ∀ o ∈ sc.ovfs, ∃ had nb, o = some (had, nb) ∧ 1 ≤ nb)
    (hovfsLen : K ≤ sc.ovfs.length)
    (hprocs : ∀ b ∈ sc.procs, b = true) (hprocsLen : K ≤ sc.procs.length)
    (_hovfHappens : ∃ nb, some (true, nb) ∈ sc.ovfs) :
    (readThreadIteration sc).countP isProcOk = K ∧
    (readThreadIteration sc).countP isReadOk = K := by
  have hdreq : ∀ k2, dreqOf sc k2 = false := fun k2 => by simp [dreqOf, hdis]
  obtain ⟨tr, k2, hout, hcp, hcread⟩ :=
    outerLoop_all_success (dreqOf sc) hdreq sc.requestedState sc.starts sc.reads
      sc.ovfs sc.procs 0 (K : Int) false false (by exact_mod_cast hK) hstarts
      (by omega) hreads (by omega) hovfs (by omega) hprocs (by omega)
  have hiter : readThreadIteration sc =
      (Ev.setEffective true :: tr) ++
        cleanup (dreqOf sc) k2 false true sc.finalRearm := by
    unfold readThreadIteration
    rw [if_neg (by simp [hwait]), if_neg (by simp [hbasic]), if_neg (by simp [hcs]),
      if_neg (by simp [hnan])]
    have hr0 : (if sc.snap.numBursts = 0 then (-1 : Int) else sc.snap.numBursts)
        = (K : Int) := by
      rw [hsnap, if_neg (by exact_mod_cast Nat.pos_iff_ne_zero.mp hK)]
    simp only [hr0, hout]
  have hcl := cleanup_facts (dreqOf sc) k2 false true sc.finalRearm
  constructor
  · rw [hiter, List.countP_append, List.countP_cons, hcp, hcl.2.2.2.1]
    simp [isProcOk]
  · rw [hiter, List.countP_append, List.countP_cons, hcread, hcl.2.2.1]
    simp [isReadOk]

/-- Witness for C1 on the scenario-4 overflow-recovery script: all 10
requested bursts are read and processed despite the restart. -/
theorem C1_overflow_preserves_burst_count_witness :
    0 < 10 ∧ scOverflow.snap.numBursts = ((10 : Nat) : Int) ∧
    (∃ nb, some (true, nb) ∈ scOverflow.ovfs) ∧
    ((readThreadIteration scOverflow).countP isProcOk = 10 ∧
     (readThreadIteration scOverflow).countP isReadOk = 10) := by
  have hovfs : ∀ o ∈ scOverflow.ovfs, ∃ had nb, o = some (had, nb) ∧ 1 ≤ nb := by
    intro o ho
    simp only [scOverflow] at ho
    fin_cases ho <;> exact ⟨_, _, rfl, by omega⟩
  refine ⟨by decide, by decide, ⟨2, by decide⟩, ?_⟩
  exact C1_overflow_preserves_burst_count scOverflow 10 (by decide) (by decide)
    (by decide) (by decide) (by decide) (by decide) (by decide) (by decide)
    (by decide) (by decide) (by decide) hovfs (by decide) (by decide) (by decide)
    ⟨2, by decide⟩

end TRCore
